import Mathlib

/-!
Shallow embedding of the batch CSV payment engine (`src/main.rs`).

The core of the program is the per-transaction apply function
`process_transaction`, which consults two in-memory maps: the client
account map (`HashMap<u16, ClientAccount>`) and the transaction ledger
(`HashMap<u32, Transaction>`).  Both maps are embedded as association
lists with HashMap-style lookup/insert operations.  The `f32` currency
amounts are embedded as exact integers (fixed-point), so every balance
statement below is in exact arithmetic.  The in-place mutation of Rust is
embedded by threading the state explicitly: `process_transaction`
returns the state after the call together with the `Result` value, since
the source mutates the maps in place even on paths that return `Err`.
Error strings built with `format!` are embedded as a structured error
type carrying the same data.
-/

/-- Embeds `struct Transaction` (src/main.rs lines 23-33). -/
structure Transaction where
  type_name : String
  client_id : Nat
  tx_id : Nat
  amount : Int
deriving DecidableEq, Repr

/-- Embeds `struct ClientAccount` (src/main.rs lines 35-43). -/
structure ClientAccount where
  client_id : Nat
  available : Int
  held : Int
  total : Int
  locked : Bool
deriving DecidableEq, Repr

/-- Embeds `ClientAccount::new` (src/main.rs lines 46-54). -/
def ClientAccount.new (in_client_id : Nat) : ClientAccount :=
  { client_id := in_client_id
    available := 0
    held := 0
    total := 0
    locked := false }

/-- Embeds the error strings produced with `format!` in the source. -/
inductive PayError where
  | unableToFindClient (client_id : Nat)
  | duplicateTransaction (tx_id : Nat)
  | insufficientFunds (client_id : Nat) (available : Int)
  | unknownTransactionType (type_name : String)
deriving DecidableEq, Repr

/-- Association-list embedding of `HashMap::get` / `get_mut` as a read. -/
def findA {α : Type} (k : Nat) : List (Nat × α) → Option α
  | [] => none
  | (k2, v) :: rest => if k2 = k then some v else findA k rest

/-- Association-list embedding of `HashMap::contains_key`. -/
def containsA {α : Type} (k : Nat) (m : List (Nat × α)) : Bool :=
  (findA k m).isSome

/-- Association-list embedding of `HashMap::insert` (replace or add). -/
def insertA {α : Type} (k : Nat) (v : α) : List (Nat × α) → List (Nat × α)
  | [] => [(k, v)]
  | (k2, v2) :: rest => if k2 = k then (k, v) :: rest else (k2, v2) :: insertA k v rest

/-- Association-list embedding of `if let Some(c) = map.get_mut(&k) { *c = v }`:
update the entry if the key is present, otherwise do nothing. -/
def updateA {α : Type} (k : Nat) (v : α) : List (Nat × α) → List (Nat × α)
  | [] => []
  | (k2, v2) :: rest => if k2 = k then (k, v) :: rest else (k2, v2) :: updateA k v rest

/-- Embeds `get_add_client` (src/main.rs lines 71-84): search a client; if it
does not exist, add a fresh account and return it.  Returns the client
together with the (possibly extended) client map, since the source mutates
the map in place. -/
def get_add_client (in_id : Nat) (in_client_list : List (Nat × ClientAccount)) :
    Except PayError (ClientAccount × List (Nat × ClientAccount)) :=
  if containsA in_id in_client_list = false then
    let new_client := ClientAccount.new in_id
    .ok (new_client, insertA in_id new_client in_client_list)
  else
    match findA in_id in_client_list with
    | some c => .ok (c, in_client_list)
    | none => .error (.unableToFindClient in_id)

/-- Embeds `add_transaction` (src/main.rs lines 89-96): insert the transaction
keyed by its `tx_id`, failing if that identifier already exists. -/
def add_transaction (in_current_tx : Transaction)
    (in_transaction_list : List (Nat × Transaction)) :
    Except PayError (List (Nat × Transaction)) :=
  if containsA in_current_tx.tx_id in_transaction_list = true then
    .error (.duplicateTransaction in_current_tx.tx_id)
  else
    .ok (insertA in_current_tx.tx_id in_current_tx in_transaction_list)

/-- The two maps owned by `main` and mutated by `process_transaction`. -/
structure EngineState where
  client_list : List (Nat × ClientAccount)
  transaction_list : List (Nat × Transaction)
deriving DecidableEq, Repr

/-- Embeds `process_transaction` (src/main.rs lines 102-263).  The first
component of the result is the state of the two maps after the call
(the source mutates them in place, so changes survive an `Err` return);
the second component is the `Result<i32, String>` value. -/
def process_transaction (in_current_tx : Transaction) (s : EngineState) :
    EngineState × Except PayError Int :=
  if in_current_tx.type_name = "deposit" then
    match get_add_client in_current_tx.client_id s.client_list with
    | .error e => (s, .error e)
    | .ok (c, cl1) =>
      let the_client : ClientAccount :=
        { c with available := c.available + in_current_tx.amount
                 total := c.total + in_current_tx.amount }
      let cl2 := updateA in_current_tx.client_id the_client cl1
      match add_transaction in_current_tx s.transaction_list with
      | .error e => ({ client_list := cl2, transaction_list := s.transaction_list }, .error e)
      | .ok txl => ({ client_list := cl2, transaction_list := txl }, .ok 0)
  else if in_current_tx.type_name = "withdrawal" then
    match get_add_client in_current_tx.client_id s.client_list with
    | .error e => (s, .error e)
    | .ok (c, cl1) =>
      if c.available > in_current_tx.amount then
        let the_client : ClientAccount :=
          { c with available := c.available - in_current_tx.amount
                   total := c.total - in_current_tx.amount }
        let cl2 := updateA in_current_tx.client_id the_client cl1
        match add_transaction in_current_tx s.transaction_list with
        | .error e => ({ client_list := cl2, transaction_list := s.transaction_list }, .error e)
        | .ok txl => ({ client_list := cl2, transaction_list := txl }, .ok 0)
      else
        ({ client_list := cl1, transaction_list := s.transaction_list },
         .error (.insufficientFunds in_current_tx.client_id c.available))
  else if in_current_tx.type_name = "dispute" then
    match get_add_client in_current_tx.client_id s.client_list with
    | .error e => (s, .error e)
    | .ok (c, cl1) =>
      match findA in_current_tx.tx_id s.transaction_list with
      | some p =>
        let the_client : ClientAccount :=
          { c with available := c.available - p.amount
                   held := c.held + p.amount }
        let cl2 := updateA in_current_tx.client_id the_client cl1
        match add_transaction in_current_tx s.transaction_list with
        | .error e => ({ client_list := cl2, transaction_list := s.transaction_list }, .error e)
        | .ok txl => ({ client_list := cl2, transaction_list := txl }, .ok 0)
      | none =>
        ({ client_list := cl1, transaction_list := s.transaction_list }, .ok 0)
  else if in_current_tx.type_name = "resolve" then
    match get_add_client in_current_tx.client_id s.client_list with
    | .error e => (s, .error e)
    | .ok (c, cl1) =>
      match findA in_current_tx.tx_id s.transaction_list with
      | some p =>
        if p.type_name = "dispute" then
          let the_client : ClientAccount :=
            { c with available := c.available + p.amount
                     held := c.held - p.amount }
          let cl2 := updateA in_current_tx.client_id the_client cl1
          match add_transaction in_current_tx s.transaction_list with
          | .error e => ({ client_list := cl2, transaction_list := s.transaction_list }, .error e)
          | .ok txl => ({ client_list := cl2, transaction_list := txl }, .ok 0)
        else
          ({ client_list := cl1, transaction_list := s.transaction_list }, .ok 0)
      | none =>
        ({ client_list := cl1, transaction_list := s.transaction_list }, .ok 0)
  else if in_current_tx.type_name = "chargeback" then
    match get_add_client in_current_tx.client_id s.client_list with
    | .error e => (s, .error e)
    | .ok (c, cl1) =>
      match findA in_current_tx.tx_id s.transaction_list with
      | some p =>
        if p.type_name = "dispute" then
          let the_client : ClientAccount :=
            { c with held := c.held - p.amount
                     total := c.total - p.amount
                     locked := true }
          let cl2 := updateA in_current_tx.client_id the_client cl1
          match add_transaction in_current_tx s.transaction_list with
          | .error e => ({ client_list := cl2, transaction_list := s.transaction_list }, .error e)
          | .ok txl => ({ client_list := cl2, transaction_list := txl }, .ok 0)
        else
          ({ client_list := cl1, transaction_list := s.transaction_list }, .ok 0)
      | none =>
        ({ client_list := cl1, transaction_list := s.transaction_list }, .ok 0)
  else
    (s, .error (.unknownTransactionType in_current_tx.type_name))

/-- Embeds the processing loop of `main` (src/main.rs lines 344-363): apply
each transaction in order; on the first `Err` the loop prints the error and
breaks, keeping the state accumulated so far. -/
def run : EngineState → List Transaction → EngineState
  | s, [] => s
  | s, tx :: rest =>
    match process_transaction tx s with
    | (s2, .ok _) => run s2 rest
    | (s2, .error _) => s2

/-- Variant of the loop that continues past errors (applies every record
unconditionally); used to state sequence facts independently of the
break-on-error policy of `main`. -/
def runAll : EngineState → List Transaction → EngineState
  | s, [] => s
  | s, tx :: rest => runAll (process_transaction tx s).1 rest

/-- The empty initial state of `main` (both maps start empty). -/
def initialState : EngineState :=
  { client_list := [], transaction_list := [] }

/-- The account `get_add_client` yields for a client id: the stored account
if present, otherwise a fresh zero account. -/
def effClient (id : Nat) (m : List (Nat × ClientAccount)) : ClientAccount :=
  (findA id m).getD (ClientAccount.new id)

/-- The client map after `get_add_client`: unchanged when the client is
present, extended with a fresh zero account otherwise. -/
def effMap (id : Nat) (m : List (Nat × ClientAccount)) : List (Nat × ClientAccount) :=
  if containsA id m then m else insertA id (ClientAccount.new id) m

deriving instance DecidableEq for Except

theorem findA_insertA_self {α : Type} (k : Nat) (v : α) (m : List (Nat × α)) :
    findA k (insertA k v m) = some v := by
  induction m with
  | nil => simp [insertA, findA]
  | cons hd rest ih =>
    by_cases h : hd.1 = k
    · simp [insertA, findA, h]
    · simp only [insertA, h, if_false]
      simpa [findA, h] using ih

theorem findA_insertA_ne {α : Type} {k k2 : Nat} (h : k2 ≠ k) (v : α)
    (m : List (Nat × α)) : findA k (insertA k2 v m) = findA k m := by
  induction m with
  | nil => simp [insertA, findA, h]
  | cons hd rest ih =>
    by_cases h2 : hd.1 = k2
    · simp [insertA, findA, h2, h, fun hk => h (h2 ▸ hk)]
    · simp only [insertA, h2, if_false]
      by_cases h3 : hd.1 = k <;> simp [findA, h3, ih]

theorem findA_updateA_self {α : Type} (k : Nat) (v : α) (m : List (Nat × α)) :
    findA k (updateA k v m) = (findA k m).map (fun _ => v) := by
  induction m with
  | nil => simp [updateA, findA]
  | cons hd rest ih =>
    by_cases h : hd.1 = k
    · simp [updateA, findA, h]
    · simp only [updateA, h, if_false]
      simpa [findA, h] using ih

theorem findA_updateA_ne {α : Type} {k k2 : Nat} (h : k2 ≠ k) (v : α)
    (m : List (Nat × α)) : findA k (updateA k2 v m) = findA k m := by
  induction m with
  | nil => simp [updateA, findA]
  | cons hd rest ih =>
    by_cases h2 : hd.1 = k2
    · simp [updateA, findA, h2, h, fun hk => h (h2 ▸ hk)]
    · simp only [updateA, h2, if_false]
      by_cases h3 : hd.1 = k <;> simp [findA, h3, ih]

theorem get_add_client_eq (in_id : Nat) (m : List (Nat × ClientAccount)) :
    get_add_client in_id m = .ok (effClient in_id m, effMap in_id m) := by
  unfold get_add_client effClient effMap containsA
  cases h : findA in_id m <;> simp [h]

theorem findA_effMap_self (id : Nat) (m : List (Nat × ClientAccount)) :
    findA id (effMap id m) = some (effClient id m) := by
  unfold effMap effClient containsA
  cases h : findA id m
  · simp [h, findA_insertA_self]
  · simp [h]

theorem findA_effMap_present {id cid : Nat} {m : List (Nat × ClientAccount)}
    {acc : ClientAccount} (h : findA cid m = some acc) :
    findA cid (effMap id m) = some acc := by
  unfold effMap containsA
  by_cases he : id = cid
  · subst he
    simp [h]
  · cases h2 : findA id m
    · simp only [h2, Option.isSome_none, Bool.false_eq_true, if_false]
      rw [findA_insertA_ne he]
      exact h
    · simpa [h2] using h

theorem findA_updateA_effMap_present {id cid : Nat} {m : List (Nat × ClientAccount)}
    {acc v : ClientAccount} (hne : id ≠ cid) (h : findA cid m = some acc) :
    findA cid (updateA id v (effMap id m)) = some acc := by
  rw [findA_updateA_ne hne]
  exact findA_effMap_present h

theorem effMap_of_present {id : Nat} {m : List (Nat × ClientAccount)}
    (h : containsA id m = true) : effMap id m = m := by
  unfold effMap
  simp [h]

theorem effClient_of_present {id : Nat} {m : List (Nat × ClientAccount)}
    {acc : ClientAccount} (h : findA id m = some acc) : effClient id m = acc := by
  unfold effClient
  simp [h]

theorem process_deposit_fresh (tx : Transaction) (s : EngineState)
    (hd : tx.type_name = "deposit")
    (hfresh : containsA tx.tx_id s.transaction_list = false) :
    process_transaction tx s =
      ({ client_list := updateA tx.client_id
            { effClient tx.client_id s.client_list with
              available := (effClient tx.client_id s.client_list).available + tx.amount
              total := (effClient tx.client_id s.client_list).total + tx.amount }
            (effMap tx.client_id s.client_list)
         transaction_list := insertA tx.tx_id tx s.transaction_list },
       .ok 0) := by
  unfold process_transaction add_transaction
  rw [hd]
  simp only [get_add_client_eq, hfresh]
  simp

theorem process_deposit_dup (tx : Transaction) (s : EngineState)
    (hd : tx.type_name = "deposit")
    (hdup : containsA tx.tx_id s.transaction_list = true) :
    process_transaction tx s =
      ({ client_list := updateA tx.client_id
            { effClient tx.client_id s.client_list with
              available := (effClient tx.client_id s.client_list).available + tx.amount
              total := (effClient tx.client_id s.client_list).total + tx.amount }
            (effMap tx.client_id s.client_list)
         transaction_list := s.transaction_list },
       .error (.duplicateTransaction tx.tx_id)) := by
  unfold process_transaction add_transaction
  rw [hd]
  simp only [get_add_client_eq, hdup]
  simp

theorem process_withdrawal_ok (tx : Transaction) (s : EngineState)
    (hd : tx.type_name = "withdrawal")
    (hav : (effClient tx.client_id s.client_list).available > tx.amount)
    (hfresh : containsA tx.tx_id s.transaction_list = false) :
    process_transaction tx s =
      ({ client_list := updateA tx.client_id
            { effClient tx.client_id s.client_list with
              available := (effClient tx.client_id s.client_list).available - tx.amount
              total := (effClient tx.client_id s.client_list).total - tx.amount }
            (effMap tx.client_id s.client_list)
         transaction_list := insertA tx.tx_id tx s.transaction_list },
       .ok 0) := by
  unfold process_transaction add_transaction
  rw [hd]
  simp only [get_add_client_eq, hfresh]
  simp [hav]

theorem process_withdrawal_dup (tx : Transaction) (s : EngineState)
    (hd : tx.type_name = "withdrawal")
    (hav : (effClient tx.client_id s.client_list).available > tx.amount)
    (hdup : containsA tx.tx_id s.transaction_list = true) :
    process_transaction tx s =
      ({ client_list := updateA tx.client_id
            { effClient tx.client_id s.client_list with
              available := (effClient tx.client_id s.client_list).available - tx.amount
              total := (effClient tx.client_id s.client_list).total - tx.amount }
            (effMap tx.client_id s.client_list)
         transaction_list := s.transaction_list },
       .error (.duplicateTransaction tx.tx_id)) := by
  unfold process_transaction add_transaction
  rw [hd]
  simp only [get_add_client_eq, hdup]
  simp [hav]

theorem process_withdrawal_insufficient (tx : Transaction) (s : EngineState)
    (hd : tx.type_name = "withdrawal")
    (hav : ¬ (effClient tx.client_id s.client_list).available > tx.amount) :
    process_transaction tx s =
      ({ client_list := effMap tx.client_id s.client_list
         transaction_list := s.transaction_list },
       .error (.insufficientFunds tx.client_id
                 (effClient tx.client_id s.client_list).available)) := by
  unfold process_transaction
  rw [hd]
  simp only [get_add_client_eq]
  simp [hav]

theorem process_dispute_some (tx : Transaction) (s : EngineState) (p : Transaction)
    (hd : tx.type_name = "dispute") (hp : findA tx.tx_id s.transaction_list = some p) :
    process_transaction tx s =
      ({ client_list := updateA tx.client_id
            { effClient tx.client_id s.client_list with
              available := (effClient tx.client_id s.client_list).available - p.amount
              held := (effClient tx.client_id s.client_list).held + p.amount }
            (effMap tx.client_id s.client_list)
         transaction_list := s.transaction_list },
       .error (.duplicateTransaction tx.tx_id)) := by
  unfold process_transaction add_transaction
  rw [hd]
  simp only [get_add_client_eq, containsA, hp]
  simp

theorem process_dispute_none (tx : Transaction) (s : EngineState)
    (hd : tx.type_name = "dispute") (hp : findA tx.tx_id s.transaction_list = none) :
    process_transaction tx s =
      ({ client_list := effMap tx.client_id s.client_list
         transaction_list := s.transaction_list },
       .ok 0) := by
  unfold process_transaction
  rw [hd]
  simp only [get_add_client_eq, hp]
  simp

theorem process_resolve_some_dispute (tx : Transaction) (s : EngineState)
    (p : Transaction) (hd : tx.type_name = "resolve")
    (hp : findA tx.tx_id s.transaction_list = some p)
    (hpd : p.type_name = "dispute") :
    process_transaction tx s =
      ({ client_list := updateA tx.client_id
            { effClient tx.client_id s.client_list with
              available := (effClient tx.client_id s.client_list).available + p.amount
              held := (effClient tx.client_id s.client_list).held - p.amount }
            (effMap tx.client_id s.client_list)
         transaction_list := s.transaction_list },
       .error (.duplicateTransaction tx.tx_id)) := by
  unfold process_transaction add_transaction
  rw [hd]
  simp only [get_add_client_eq, containsA, hp]
  simp [hpd]

theorem process_resolve_some_other (tx : Transaction) (s : EngineState)
    (p : Transaction) (hd : tx.type_name = "resolve")
    (hp : findA tx.tx_id s.transaction_list = some p)
    (hpd : ¬ p.type_name = "dispute") :
    process_transaction tx s =
      ({ client_list := effMap tx.client_id s.client_list
         transaction_list := s.transaction_list },
       .ok 0) := by
  unfold process_transaction
  rw [hd]
  simp only [get_add_client_eq, hp]
  simp [hpd]

theorem process_resolve_none (tx : Transaction) (s : EngineState)
    (hd : tx.type_name = "resolve") (hp : findA tx.tx_id s.transaction_list = none) :
    process_transaction tx s =
      ({ client_list := effMap tx.client_id s.client_list
         transaction_list := s.transaction_list },
       .ok 0) := by
  unfold process_transaction
  rw [hd]
  simp only [get_add_client_eq, hp]
  simp

theorem process_chargeback_some_dispute (tx : Transaction) (s : EngineState)
    (p : Transaction) (hd : tx.type_name = "chargeback")
    (hp : findA tx.tx_id s.transaction_list = some p)
    (hpd : p.type_name = "dispute") :
    process_transaction tx s =
      ({ client_list := updateA tx.client_id
            { effClient tx.client_id s.client_list with
              held := (effClient tx.client_id s.client_list).held - p.amount
              total := (effClient tx.client_id s.client_list).total - p.amount
              locked := true }
            (effMap tx.client_id s.client_list)
         transaction_list := s.transaction_list },
       .error (.duplicateTransaction tx.tx_id)) := by
  unfold process_transaction add_transaction
  rw [hd]
  simp only [get_add_client_eq, containsA, hp]
  simp [hpd]

theorem process_chargeback_some_other (tx : Transaction) (s : EngineState)
    (p : Transaction) (hd : tx.type_name = "chargeback")
    (hp : findA tx.tx_id s.transaction_list = some p)
    (hpd : ¬ p.type_name = "dispute") :
    process_transaction tx s =
      ({ client_list := effMap tx.client_id s.client_list
         transaction_list := s.transaction_list },
       .ok 0) := by
  unfold process_transaction
  rw [hd]
  simp only [get_add_client_eq, hp]
  simp [hpd]

theorem process_chargeback_none (tx : Transaction) (s : EngineState)
    (hd : tx.type_name = "chargeback") (hp : findA tx.tx_id s.transaction_list = none) :
    process_transaction tx s =
      ({ client_list := effMap tx.client_id s.client_list
         transaction_list := s.transaction_list },
       .ok 0) := by
  unfold process_transaction
  rw [hd]
  simp only [get_add_client_eq, hp]
  simp

theorem process_unknown (tx : Transaction) (s : EngineState)
    (h1 : ¬ tx.type_name = "deposit") (h2 : ¬ tx.type_name = "withdrawal")
    (h3 : ¬ tx.type_name = "dispute") (h4 : ¬ tx.type_name = "resolve")
    (h5 : ¬ tx.type_name = "chargeback") :
    process_transaction tx s = (s, .error (.unknownTransactionType tx.type_name)) := by
  unfold process_transaction
  rw [if_neg h1, if_neg h2, if_neg h3, if_neg h4, if_neg h5]

theorem containsA_insertA_ne {α : Type} {k k2 : Nat} (h : k2 ≠ k) (v : α)
    (m : List (Nat × α)) : containsA k (insertA k2 v m) = containsA k m := by
  unfold containsA
  rw [findA_insertA_ne h]

theorem containsA_updateA {α : Type} (k k2 : Nat) (v : α) (m : List (Nat × α)) :
    containsA k (updateA k2 v m) = containsA k m := by
  unfold containsA
  by_cases h : k2 = k
  · rw [h, findA_updateA_self]
    cases findA k m <;> simp
  · rw [findA_updateA_ne h]

theorem containsA_effMap_self (id : Nat) (m : List (Nat × ClientAccount)) :
    containsA id (effMap id m) = true := by
  unfold containsA
  rw [findA_effMap_self]
  rfl

theorem clients_after_deposit (tx : Transaction) (s : EngineState)
    (hd : tx.type_name = "deposit") :
    (process_transaction tx s).1.client_list =
      updateA tx.client_id
        { effClient tx.client_id s.client_list with
          available := (effClient tx.client_id s.client_list).available + tx.amount
          total := (effClient tx.client_id s.client_list).total + tx.amount }
        (effMap tx.client_id s.client_list) := by
  cases hdup : containsA tx.tx_id s.transaction_list
  · rw [process_deposit_fresh tx s hd hdup]
  · rw [process_deposit_dup tx s hd hdup]

theorem clients_after_withdrawal_ok (tx : Transaction) (s : EngineState)
    (hd : tx.type_name = "withdrawal")
    (hav : (effClient tx.client_id s.client_list).available > tx.amount) :
    (process_transaction tx s).1.client_list =
      updateA tx.client_id
        { effClient tx.client_id s.client_list with
          available := (effClient tx.client_id s.client_list).available - tx.amount
          total := (effClient tx.client_id s.client_list).total - tx.amount }
        (effMap tx.client_id s.client_list) := by
  cases hdup : containsA tx.tx_id s.transaction_list
  · rw [process_withdrawal_ok tx s hd hav hdup]
  · rw [process_withdrawal_dup tx s hd hav hdup]

/-- The balance invariant of §8 of the spec, in exact arithmetic. -/
def BalInv (m : List (Nat × ClientAccount)) : Prop :=
  ∀ cid acc, findA cid m = some acc → acc.total = acc.available + acc.held

theorem balInv_updateA {m : List (Nat × ClientAccount)} {k : Nat} {c : ClientAccount}
    (h : BalInv m) (hc : c.total = c.available + c.held) : BalInv (updateA k c m) := by
  intro cid acc hf
  by_cases hk : k = cid
  · rw [← hk] at hf
    rw [findA_updateA_self] at hf
    cases h2 : findA k m with
    | none => rw [h2] at hf; simp at hf
    | some a =>
      rw [h2] at hf
      have hca : c = acc := by simpa using hf
      rw [← hca]
      exact hc
  · rw [findA_updateA_ne hk] at hf
    exact h cid acc hf

theorem balInv_insertA {m : List (Nat × ClientAccount)} {k : Nat} {c : ClientAccount}
    (h : BalInv m) (hc : c.total = c.available + c.held) : BalInv (insertA k c m) := by
  intro cid acc hf
  by_cases hk : k = cid
  · subst hk
    rw [findA_insertA_self] at hf
    cases hf
    exact hc
  · rw [findA_insertA_ne hk] at hf
    exact h cid acc hf

theorem balInv_effMap {m : List (Nat × ClientAccount)} (id : Nat) (h : BalInv m) :
    BalInv (effMap id m) := by
  unfold effMap
  split
  · exact h
  · exact balInv_insertA h (by simp [ClientAccount.new])

theorem effClient_bal {m : List (Nat × ClientAccount)} (h : BalInv m) (id : Nat) :
    (effClient id m).total = (effClient id m).available + (effClient id m).held := by
  unfold effClient
  cases h2 : findA id m
  · simp [ClientAccount.new]
  · simpa using h id _ h2

theorem process_preserves_balInv (tx : Transaction) (s : EngineState)
    (h : BalInv s.client_list) : BalInv (process_transaction tx s).1.client_list := by
  have hbal := effClient_bal h tx.client_id
  by_cases h1 : tx.type_name = "deposit"
  · rw [clients_after_deposit tx s h1]
    refine balInv_updateA (balInv_effMap _ h) ?_
    try dsimp
    omega
  by_cases h2 : tx.type_name = "withdrawal"
  · by_cases hav : (effClient tx.client_id s.client_list).available > tx.amount
    · rw [clients_after_withdrawal_ok tx s h2 hav]
      refine balInv_updateA (balInv_effMap _ h) ?_
      try dsimp
      omega
    · rw [process_withdrawal_insufficient tx s h2 hav]
      exact balInv_effMap _ h
  by_cases h3 : tx.type_name = "dispute"
  · cases hp : findA tx.tx_id s.transaction_list with
    | some p =>
      rw [process_dispute_some tx s p h3 hp]
      refine balInv_updateA (balInv_effMap _ h) ?_
      try dsimp
      omega
    | none =>
      rw [process_dispute_none tx s h3 hp]
      exact balInv_effMap _ h
  by_cases h4 : tx.type_name = "resolve"
  · cases hp : findA tx.tx_id s.transaction_list with
    | some p =>
      by_cases hpd : p.type_name = "dispute"
      · rw [process_resolve_some_dispute tx s p h4 hp hpd]
        refine balInv_updateA (balInv_effMap _ h) ?_
        try dsimp
        omega
      · rw [process_resolve_some_other tx s p h4 hp hpd]
        exact balInv_effMap _ h
    | none =>
      rw [process_resolve_none tx s h4 hp]
      exact balInv_effMap _ h
  by_cases h5 : tx.type_name = "chargeback"
  · cases hp : findA tx.tx_id s.transaction_list with
    | some p =>
      by_cases hpd : p.type_name = "dispute"
      · rw [process_chargeback_some_dispute tx s p h5 hp hpd]
        refine balInv_updateA (balInv_effMap _ h) ?_
        try dsimp
        omega
      · rw [process_chargeback_some_other tx s p h5 hp hpd]
        exact balInv_effMap _ h
    | none =>
      rw [process_chargeback_none tx s h5 hp]
      exact balInv_effMap _ h
  rw [process_unknown tx s h1 h2 h3 h4 h5]
  exact h

theorem run_preserves_balInv (txs : List Transaction) (s : EngineState)
    (h : BalInv s.client_list) : BalInv (run s txs).client_list := by
  induction txs generalizing s with
  | nil => simpa [run] using h
  | cons tx rest ih =>
    have h2 := process_preserves_balInv tx s h
    rcases hps : process_transaction tx s with ⟨s2, r⟩
    rw [hps] at h2
    cases r with
    | error e => simpa [run, hps] using h2
    | ok v =>
      simp only [run, hps]
      exact ih s2 h2

/-- C1: refuting evaluation at the failing input deposit(1,1,5), dispute(1,1).
The dispute does move 5 from available to held, but the duplicate-identifier
check in `add_transaction` is NOT bypassed: it rejects the disputed `tx_id`,
so the dispute is never recorded (the ledger still holds the original
deposit) and a duplicate-transaction error is returned instead of success. -/
theorem c1_dispute_duplicate_error :
    process_transaction ⟨"dispute", 1, 1, 0⟩
        (process_transaction ⟨"deposit", 1, 1, 5⟩ initialState).1 =
      ({ client_list := [(1, ⟨1, 0, 5, 5, false⟩)]
         transaction_list := [(1, ⟨"deposit", 1, 1, 5⟩)] },
       .error (.duplicateTransaction 1)) ∧
    (process_transaction ⟨"dispute", 1, 1, 0⟩
        (process_transaction ⟨"deposit", 1, 1, 5⟩ initialState).1).2 ≠ .ok 0 := by
  decide

/-- C2: evaluation at the failing input deposit(1,1,5), dispute(1,1),
resolve(1,1).  The dispute aborts with a duplicate-transaction error, so the
dispute is never recorded in the ledger and the resolve never finds a
stored kind Dispute: the final balances are available=0, held=5, total=5,
not the claimed available=5, held=0, total=5.  This holds both under the
break-on-first-error loop of `main` (`run`) and when every record is
applied regardless (`runAll`). -/
theorem c2_resolve_sequence_final_state :
    findA 1 (run initialState
        [⟨"deposit", 1, 1, 5⟩, ⟨"dispute", 1, 1, 0⟩, ⟨"resolve", 1, 1, 0⟩]).client_list =
      some ⟨1, 0, 5, 5, false⟩ ∧
    findA 1 (runAll initialState
        [⟨"deposit", 1, 1, 5⟩, ⟨"dispute", 1, 1, 0⟩, ⟨"resolve", 1, 1, 0⟩]).client_list =
      some ⟨1, 0, 5, 5, false⟩ := by
  decide

/-- C3: evaluation at the failing input deposit(1,1,5), dispute(1,1),
chargeback(1,1).  As in C2 the dispute is never recorded, so the chargeback
finds a ledger entry of kind "deposit", not "dispute", and is silently
ignored: the final state is available=0, held=5, total=5, locked=false,
not the claimed available=0, held=0, total=0, locked=true.  This holds both
under the break-on-first-error loop of `main` (`run`) and when every record
is applied regardless (`runAll`). -/
theorem c3_chargeback_sequence_final_state :
    findA 1 (run initialState
        [⟨"deposit", 1, 1, 5⟩, ⟨"dispute", 1, 1, 0⟩, ⟨"chargeback", 1, 1, 0⟩]).client_list =
      some ⟨1, 0, 5, 5, false⟩ ∧
    findA 1 (runAll initialState
        [⟨"deposit", 1, 1, 5⟩, ⟨"dispute", 1, 1, 0⟩, ⟨"chargeback", 1, 1, 0⟩]).client_list =
      some ⟨1, 0, 5, 5, false⟩ := by
  decide

/-- C4 counterexample: on a fresh (zero-balance) client, deposit(1,1,5)
followed by withdrawal(1,2,5) does not succeed: the strict precondition
`available > amount` fails at 5 > 5, so the withdrawal returns an
insufficient-funds error instead of restoring the pre-deposit balances. -/
theorem c4_counterexample :
    (process_transaction ⟨"withdrawal", 1, 2, 5⟩
        (process_transaction ⟨"deposit", 1, 1, 5⟩ initialState).1).2 =
      .error (.insufficientFunds 1 5) ∧
    (process_transaction ⟨"withdrawal", 1, 2, 5⟩
        (process_transaction ⟨"deposit", 1, 1, 5⟩ initialState).1).2 ≠ .ok 0 := by
  decide

/-- C5: for every input sequence processed by the main loop from the empty
initial state, every client account present in the resulting map satisfies
total = available + held, in exact arithmetic. -/
theorem c5_total_eq_available_add_held (txs : List Transaction) (cid : Nat)
    (acc : ClientAccount)
    (h : findA cid (run initialState txs).client_list = some acc) :
    acc.total = acc.available + acc.held := by
  have h0 : BalInv initialState.client_list := by
    intro c a hf
    simp [initialState, findA] at hf
  exact run_preserves_balInv txs initialState h0 cid acc h

/-- C5 witness: the invariant theorem applied to the concrete one-record
input deposit(1,1,5), whose resulting account is (available 5, held 0,
total 5). -/
theorem c5_invariant_witness :
    (⟨1, 5, 0, 5, false⟩ : ClientAccount).total =
      (⟨1, 5, 0, 5, false⟩ : ClientAccount).available +
        (⟨1, 5, 0, 5, false⟩ : ClientAccount).held :=
  c5_total_eq_available_add_held [⟨"deposit", 1, 1, 5⟩] 1 ⟨1, 5, 0, 5, false⟩ (by decide)

/-- C9: the client lookup-or-create operation always returns Ok: for every
client id and account map, `get_add_client` returns a client and the
(possibly extended) map, so its "Unable to find client" branch is
unreachable and no transaction can fail at client resolution. -/
theorem c9_get_add_client_always_ok (in_id : Nat) (m : List (Nat × ClientAccount)) :
    ∃ c m2, get_add_client in_id m = Except.ok (c, m2) :=
  ⟨effClient in_id m, effMap in_id m, get_add_client_eq in_id m⟩

theorem effClient_of_absent {id : Nat} {m : List (Nat × ClientAccount)}
    (h : containsA id m = false) : effClient id m = ClientAccount.new id := by
  unfold containsA at h
  unfold effClient
  cases h2 : findA id m
  · rfl
  · rw [h2] at h
    simp at h

theorem findA_after_effMap {id cid : Nat} {m : List (Nat × ClientAccount)}
    {acc acc2 : ClientAccount} (hb : findA cid m = some acc)
    (ha : findA cid (effMap id m) = some acc2) : acc2 = acc := by
  rw [findA_effMap_present hb] at ha
  cases ha
  rfl

theorem findA_updateA_effMap_self (id : Nat) (c1 : ClientAccount)
    (m : List (Nat × ClientAccount)) :
    findA id (updateA id c1 (effMap id m)) = some c1 := by
  rw [findA_updateA_self, findA_effMap_self]
  rfl

theorem findA_after_update {id cid : Nat} {m : List (Nat × ClientAccount)}
    {c1 acc acc2 : ClientAccount} (hb : findA cid m = some acc)
    (ha : findA cid (updateA id c1 (effMap id m)) = some acc2) :
    (acc2 = c1 ∧ effClient id m = acc) ∨ acc2 = acc := by
  by_cases hcc : id = cid
  · left
    rw [hcc] at ha
    rw [← hcc] at hb
    rw [findA_updateA_effMap_self] at ha
    cases ha
    exact ⟨rfl, effClient_of_present hb⟩
  · right
    rw [findA_updateA_ne hcc] at ha
    exact findA_after_effMap hb ha

theorem process_ignored_eq (tx : Transaction) (s : EngineState)
    (h : (tx.type_name = "dispute" ∧ findA tx.tx_id s.transaction_list = none) ∨
         ((tx.type_name = "resolve" ∨ tx.type_name = "chargeback") ∧
          (findA tx.tx_id s.transaction_list = none ∨
           ∃ p, findA tx.tx_id s.transaction_list = some p ∧
                ¬ p.type_name = "dispute"))) :
    process_transaction tx s =
      ({ client_list := effMap tx.client_id s.client_list
         transaction_list := s.transaction_list }, .ok 0) := by
  rcases h with ⟨hd, hp⟩ | ⟨hd, hp⟩
  · exact process_dispute_none tx s hd hp
  · rcases hd with hd | hd
    · rcases hp with hp | ⟨p, hp, hpd⟩
      · exact process_resolve_none tx s hd hp
      · exact process_resolve_some_other tx s p hd hp hpd
    · rcases hp with hp | ⟨p, hp, hpd⟩
      · exact process_chargeback_none tx s hd hp
      · exact process_chargeback_some_other tx s p hd hp hpd

theorem clients_after_ignored (tx : Transaction) (s : EngineState)
    (h : (tx.type_name = "dispute" ∧ findA tx.tx_id s.transaction_list = none) ∨
         ((tx.type_name = "resolve" ∨ tx.type_name = "chargeback") ∧
          (findA tx.tx_id s.transaction_list = none ∨
           ∃ p, findA tx.tx_id s.transaction_list = some p ∧
                ¬ p.type_name = "dispute"))) :
    (process_transaction tx s).1.client_list = effMap tx.client_id s.client_list := by
  rw [process_ignored_eq tx s h]

theorem clients_after_withdrawal_insufficient (tx : Transaction) (s : EngineState)
    (hd : tx.type_name = "withdrawal")
    (hav : ¬ (effClient tx.client_id s.client_list).available > tx.amount) :
    (process_transaction tx s).1.client_list = effMap tx.client_id s.client_list := by
  rw [process_withdrawal_insufficient tx s hd hav]

theorem clients_after_dispute_some (tx : Transaction) (s : EngineState) (p : Transaction)
    (hd : tx.type_name = "dispute") (hp : findA tx.tx_id s.transaction_list = some p) :
    (process_transaction tx s).1.client_list =
      updateA tx.client_id
        { effClient tx.client_id s.client_list with
          available := (effClient tx.client_id s.client_list).available - p.amount
          held := (effClient tx.client_id s.client_list).held + p.amount }
        (effMap tx.client_id s.client_list) := by
  rw [process_dispute_some tx s p hd hp]

theorem clients_after_resolve_some_dispute (tx : Transaction) (s : EngineState)
    (p : Transaction) (hd : tx.type_name = "resolve")
    (hp : findA tx.tx_id s.transaction_list = some p)
    (hpd : p.type_name = "dispute") :
    (process_transaction tx s).1.client_list =
      updateA tx.client_id
        { effClient tx.client_id s.client_list with
          available := (effClient tx.client_id s.client_list).available + p.amount
          held := (effClient tx.client_id s.client_list).held - p.amount }
        (effMap tx.client_id s.client_list) := by
  rw [process_resolve_some_dispute tx s p hd hp hpd]

theorem clients_after_chargeback_some_dispute (tx : Transaction) (s : EngineState)
    (p : Transaction) (hd : tx.type_name = "chargeback")
    (hp : findA tx.tx_id s.transaction_list = some p)
    (hpd : p.type_name = "dispute") :
    (process_transaction tx s).1.client_list =
      updateA tx.client_id
        { effClient tx.client_id s.client_list with
          held := (effClient tx.client_id s.client_list).held - p.amount
          total := (effClient tx.client_id s.client_list).total - p.amount
          locked := true }
        (effMap tx.client_id s.client_list) := by
  rw [process_chargeback_some_dispute tx s p hd hp hpd]

theorem clients_after_unknown (tx : Transaction) (s : EngineState)
    (h1 : ¬ tx.type_name = "deposit") (h2 : ¬ tx.type_name = "withdrawal")
    (h3 : ¬ tx.type_name = "dispute") (h4 : ¬ tx.type_name = "resolve")
    (h5 : ¬ tx.type_name = "chargeback") :
    (process_transaction tx s).1.client_list = s.client_list := by
  rw [process_unknown tx s h1 h2 h3 h4 h5]

/-- C6: the locked flag is a one-way latch.  For any state, if the account of a client existed before a transaction was applied and still exists after,
then (a) the flag went from false to true only if the transaction was a
chargeback whose referenced ledger entry exists with stored kind
"dispute", and (b) once true it stays true across any transaction. -/
theorem c6_locked_one_way_latch (tx : Transaction) (s : EngineState) (cid : Nat)
    (acc acc2 : ClientAccount)
    (hb : findA cid s.client_list = some acc)
    (ha : findA cid (process_transaction tx s).1.client_list = some acc2) :
    (acc.locked = false → acc2.locked = true →
       tx.type_name = "chargeback" ∧
       ∃ p, findA tx.tx_id s.transaction_list = some p ∧ p.type_name = "dispute") ∧
    (acc.locked = true → acc2.locked = true) := by
  have hmain : acc2.locked = acc.locked ∨
      (tx.type_name = "chargeback" ∧ acc2.locked = true ∧
       ∃ p, findA tx.tx_id s.transaction_list = some p ∧ p.type_name = "dispute") := by
    by_cases h1 : tx.type_name = "deposit"
    · rw [clients_after_deposit tx s h1] at ha
      rcases findA_after_update hb ha with ⟨h6, h7⟩ | h6
      · left; rw [h6, ← h7]
      · left; rw [h6]
    by_cases h2 : tx.type_name = "withdrawal"
    · by_cases hav : (effClient tx.client_id s.client_list).available > tx.amount
      · rw [clients_after_withdrawal_ok tx s h2 hav] at ha
        rcases findA_after_update hb ha with ⟨h6, h7⟩ | h6
        · left; rw [h6, ← h7]
        · left; rw [h6]
      · rw [clients_after_withdrawal_insufficient tx s h2 hav] at ha
        left
        rw [findA_after_effMap hb ha]
    by_cases h3 : tx.type_name = "dispute"
    · cases hp : findA tx.tx_id s.transaction_list with
      | some p =>
        rw [clients_after_dispute_some tx s p h3 hp] at ha
        rcases findA_after_update hb ha with ⟨h6, h7⟩ | h6
        · left; rw [h6, ← h7]
        · left; rw [h6]
      | none =>
        rw [clients_after_ignored tx s (Or.inl ⟨h3, hp⟩)] at ha
        left
        rw [findA_after_effMap hb ha]
    by_cases h4 : tx.type_name = "resolve"
    · cases hp : findA tx.tx_id s.transaction_list with
      | some p =>
        by_cases hpd : p.type_name = "dispute"
        · rw [clients_after_resolve_some_dispute tx s p h4 hp hpd] at ha
          rcases findA_after_update hb ha with ⟨h6, h7⟩ | h6
          · left; rw [h6, ← h7]
          · left; rw [h6]
        · rw [clients_after_ignored tx s (Or.inr ⟨Or.inl h4, Or.inr ⟨p, hp, hpd⟩⟩)] at ha
          left
          rw [findA_after_effMap hb ha]
      | none =>
        rw [clients_after_ignored tx s (Or.inr ⟨Or.inl h4, Or.inl hp⟩)] at ha
        left
        rw [findA_after_effMap hb ha]
    by_cases h5 : tx.type_name = "chargeback"
    · cases hp : findA tx.tx_id s.transaction_list with
      | some p =>
        by_cases hpd : p.type_name = "dispute"
        · rw [clients_after_chargeback_some_dispute tx s p h5 hp hpd] at ha
          rcases findA_after_update hb ha with ⟨h6, h7⟩ | h6
          · right
            exact ⟨h5, by rw [h6], p, rfl, hpd⟩
          · left; rw [h6]
        · rw [clients_after_ignored tx s (Or.inr ⟨Or.inr h5, Or.inr ⟨p, hp, hpd⟩⟩)] at ha
          left
          rw [findA_after_effMap hb ha]
      | none =>
        rw [clients_after_ignored tx s (Or.inr ⟨Or.inr h5, Or.inl hp⟩)] at ha
        left
        rw [findA_after_effMap hb ha]
    rw [clients_after_unknown tx s h1 h2 h3 h4 h5] at ha
    rw [hb] at ha
    cases ha
    left
    rfl
  rcases hmain with hlock | ⟨hcb, hl2, p, hp, hpd⟩
  · constructor
    · intro hf ht
      rw [hlock, hf] at ht
      cases ht
    · intro ht
      exact hlock.trans ht
  · exact ⟨fun _ _ => ⟨hcb, p, hp, hpd⟩, fun _ => hl2⟩

/-- C6 witness: the latch theorem applied to a deposit of 3 on a client
holding (available 5, held 0, total 5, unlocked). -/
theorem c6_latch_witness :
    ((⟨1, 5, 0, 5, false⟩ : ClientAccount).locked = false →
       (⟨1, 8, 0, 8, false⟩ : ClientAccount).locked = true →
       (⟨"deposit", 1, 2, 3⟩ : Transaction).type_name = "chargeback" ∧
       ∃ p, findA (⟨"deposit", 1, 2, 3⟩ : Transaction).tx_id
              (⟨[(1, ⟨1, 5, 0, 5, false⟩)], []⟩ : EngineState).transaction_list =
                some p ∧ p.type_name = "dispute") ∧
    ((⟨1, 5, 0, 5, false⟩ : ClientAccount).locked = true →
       (⟨1, 8, 0, 8, false⟩ : ClientAccount).locked = true) :=
  c6_locked_one_way_latch ⟨"deposit", 1, 2, 3⟩ ⟨[(1, ⟨1, 5, 0, 5, false⟩)], []⟩ 1
    ⟨1, 5, 0, 5, false⟩ ⟨1, 8, 0, 8, false⟩ (by decide) (by decide)

/-- C7: a Dispute, Resolve or Chargeback whose referenced tx_id is absent
from the ledger, or a Resolve/Chargeback where the stored
kind of the referenced entry is not "dispute", returns Ok, writes nothing to the ledger, and leaves
every stored account of the referenced client unchanged; in particular a
Resolve replayed against a non-Dispute-typed reference is a no-op. -/
theorem c7_ignored_reference_noop (tx : Transaction) (s : EngineState)
    (h : (tx.type_name = "dispute" ∧ findA tx.tx_id s.transaction_list = none) ∨
         ((tx.type_name = "resolve" ∨ tx.type_name = "chargeback") ∧
          (findA tx.tx_id s.transaction_list = none ∨
           ∃ p, findA tx.tx_id s.transaction_list = some p ∧
                ¬ p.type_name = "dispute"))) :
    (process_transaction tx s).2 = .ok 0 ∧
    (process_transaction tx s).1.transaction_list = s.transaction_list ∧
    ∀ acc, findA tx.client_id s.client_list = some acc →
      findA tx.client_id (process_transaction tx s).1.client_list = some acc := by
  rw [process_ignored_eq tx s h]
  refine ⟨rfl, rfl, ?_⟩
  intro acc hacc
  exact findA_effMap_present hacc

/-- C7 witness: the no-op theorem applied to dispute(1,99) in a state where
client 1 holds (available 7, held 0, total 7) and tx 99 was never seen. -/
theorem c7_noop_witness :
    (process_transaction ⟨"dispute", 1, 99, 0⟩
        ⟨[(1, ⟨1, 7, 0, 7, false⟩)], []⟩).2 = .ok 0 ∧
    (process_transaction ⟨"dispute", 1, 99, 0⟩
        ⟨[(1, ⟨1, 7, 0, 7, false⟩)], []⟩).1.transaction_list =
      (⟨[(1, ⟨1, 7, 0, 7, false⟩)], []⟩ : EngineState).transaction_list ∧
    ∀ acc, findA 1 (⟨[(1, ⟨1, 7, 0, 7, false⟩)], []⟩ : EngineState).client_list =
        some acc →
      findA 1 (process_transaction ⟨"dispute", 1, 99, 0⟩
        ⟨[(1, ⟨1, 7, 0, 7, false⟩)], []⟩).1.client_list = some acc :=
  c7_ignored_reference_noop ⟨"dispute", 1, 99, 0⟩ ⟨[(1, ⟨1, 7, 0, 7, false⟩)], []⟩
    (Or.inl ⟨rfl, by decide⟩)

/-- C8: a Withdrawal that fails the strict precondition (available not
strictly greater than amount) returns the insufficient-funds error carrying
the available balance of the client, records nothing in the ledger, stores the
account of the client unchanged (the fresh zero account if the client was new),
and leaves every previously stored account untouched. -/
theorem c8_insufficient_funds_error (tx : Transaction) (s : EngineState)
    (hw : tx.type_name = "withdrawal")
    (hin : ¬ (effClient tx.client_id s.client_list).available > tx.amount) :
    (process_transaction tx s).2 =
      .error (.insufficientFunds tx.client_id
                (effClient tx.client_id s.client_list).available) ∧
    (process_transaction tx s).1.transaction_list = s.transaction_list ∧
    findA tx.client_id (process_transaction tx s).1.client_list =
      some (effClient tx.client_id s.client_list) ∧
    ∀ cid acc, findA cid s.client_list = some acc →
      findA cid (process_transaction tx s).1.client_list = some acc := by
  rw [process_withdrawal_insufficient tx s hw hin]
  refine ⟨rfl, rfl, findA_effMap_self _ _, ?_⟩
  intro cid acc hacc
  exact findA_effMap_present hacc

/-- C8 witness: the insufficient-funds theorem applied to the spec scenario
withdrawal(1,1,10) on a fresh zero-balance client. -/
theorem c8_insufficient_witness :
    (process_transaction ⟨"withdrawal", 1, 1, 10⟩ initialState).2 =
      .error (.insufficientFunds 1 (effClient 1 initialState.client_list).available) ∧
    (process_transaction ⟨"withdrawal", 1, 1, 10⟩ initialState).1.transaction_list =
      initialState.transaction_list ∧
    findA 1 (process_transaction ⟨"withdrawal", 1, 1, 10⟩ initialState).1.client_list =
      some (effClient 1 initialState.client_list) ∧
    ∀ cid acc, findA cid initialState.client_list = some acc →
      findA cid (process_transaction ⟨"withdrawal", 1, 1, 10⟩
        initialState).1.client_list = some acc :=
  c8_insufficient_funds_error ⟨"withdrawal", 1, 1, 10⟩ initialState rfl (by decide)

/-- C10: every apply call for one of the five recognized kinds first creates
a fresh zero-balance unlocked account for an unseen client, so the client is
present in the map afterwards even if the call ends ignored or in an error;
and after an ignored Dispute/Resolve/Chargeback or a failed Withdrawal the
stored account is exactly the fresh zero account. -/
theorem c10_lazy_client_creation (tx : Transaction) (s : EngineState)
    (habs : containsA tx.client_id s.client_list = false) :
    ((tx.type_name = "deposit" ∨ tx.type_name = "withdrawal" ∨
      tx.type_name = "dispute" ∨ tx.type_name = "resolve" ∨
      tx.type_name = "chargeback") →
      containsA tx.client_id (process_transaction tx s).1.client_list = true) ∧
    (((tx.type_name = "dispute" ∧ findA tx.tx_id s.transaction_list = none) ∨
      ((tx.type_name = "resolve" ∨ tx.type_name = "chargeback") ∧
       (findA tx.tx_id s.transaction_list = none ∨
        ∃ p, findA tx.tx_id s.transaction_list = some p ∧
             ¬ p.type_name = "dispute")) ∨
      (tx.type_name = "withdrawal" ∧ ¬ (0 : Int) > tx.amount)) →
      findA tx.client_id (process_transaction tx s).1.client_list =
        some (ClientAccount.new tx.client_id)) := by
  constructor
  · intro hk
    rcases hk with h1 | h2 | h3 | h4 | h5
    · rw [clients_after_deposit tx s h1, containsA_updateA, containsA_effMap_self]
    · by_cases hav : (effClient tx.client_id s.client_list).available > tx.amount
      · rw [clients_after_withdrawal_ok tx s h2 hav, containsA_updateA,
            containsA_effMap_self]
      · rw [clients_after_withdrawal_insufficient tx s h2 hav, containsA_effMap_self]
    · cases hp : findA tx.tx_id s.transaction_list with
      | some p =>
        rw [clients_after_dispute_some tx s p h3 hp, containsA_updateA,
            containsA_effMap_self]
      | none =>
        rw [clients_after_ignored tx s (Or.inl ⟨h3, hp⟩), containsA_effMap_self]
    · cases hp : findA tx.tx_id s.transaction_list with
      | some p =>
        by_cases hpd : p.type_name = "dispute"
        · rw [clients_after_resolve_some_dispute tx s p h4 hp hpd, containsA_updateA,
              containsA_effMap_self]
        · rw [clients_after_ignored tx s (Or.inr ⟨Or.inl h4, Or.inr ⟨p, hp, hpd⟩⟩),
              containsA_effMap_self]
      | none =>
        rw [clients_after_ignored tx s (Or.inr ⟨Or.inl h4, Or.inl hp⟩),
            containsA_effMap_self]
    · cases hp : findA tx.tx_id s.transaction_list with
      | some p =>
        by_cases hpd : p.type_name = "dispute"
        · rw [clients_after_chargeback_some_dispute tx s p h5 hp hpd, containsA_updateA,
              containsA_effMap_self]
        · rw [clients_after_ignored tx s (Or.inr ⟨Or.inr h5, Or.inr ⟨p, hp, hpd⟩⟩),
              containsA_effMap_self]
      | none =>
        rw [clients_after_ignored tx s (Or.inr ⟨Or.inr h5, Or.inl hp⟩),
            containsA_effMap_self]
  · intro hk
    rcases hk with hig | hig | ⟨hw, hneg⟩
    · rw [clients_after_ignored tx s (Or.inl hig), findA_effMap_self,
          effClient_of_absent habs]
    · rw [clients_after_ignored tx s (Or.inr hig), findA_effMap_self,
          effClient_of_absent habs]
    · have hin : ¬ (effClient tx.client_id s.client_list).available > tx.amount := by
        rw [effClient_of_absent habs]
        exact hneg
      rw [clients_after_withdrawal_insufficient tx s hw hin, findA_effMap_self,
          effClient_of_absent habs]

/-- C10 witness: the creation theorem applied to dispute(1,99) on the empty
initial state, where client 1 was never seen and tx 99 is absent. -/
theorem c10_creation_witness :
    ((("dispute" : String) = "deposit" ∨ ("dispute" : String) = "withdrawal" ∨
      ("dispute" : String) = "dispute" ∨ ("dispute" : String) = "resolve" ∨
      ("dispute" : String) = "chargeback") →
      containsA 1 (process_transaction ⟨"dispute", 1, 99, 0⟩
        initialState).1.client_list = true) ∧
    (((("dispute" : String) = "dispute" ∧
        findA 99 initialState.transaction_list = none) ∨
      ((("dispute" : String) = "resolve" ∨ ("dispute" : String) = "chargeback") ∧
       (findA 99 initialState.transaction_list = none ∨
        ∃ p, findA 99 initialState.transaction_list = some p ∧
             ¬ p.type_name = "dispute")) ∨
      (("dispute" : String) = "withdrawal" ∧ ¬ (0 : Int) > (0 : Int))) →
      findA 1 (process_transaction ⟨"dispute", 1, 99, 0⟩
        initialState).1.client_list = some (ClientAccount.new 1)) :=
  c10_lazy_client_creation ⟨"dispute", 1, 99, 0⟩ initialState (by decide)

/-- C4 (amended): for every client account already holding a strictly
positive available balance, a deposit of any amount a followed by a
withdrawal of the same a, under fresh distinct transaction identifiers,
both succeed and return the account exactly to its pre-deposit state. -/
theorem c4_deposit_withdrawal_roundtrip (s : EngineState) (cid tx1 tx2 : Nat)
    (a : Int) (c0 : ClientAccount)
    (hc : findA cid s.client_list = some c0)
    (hpos : 0 < c0.available)
    (h1 : containsA tx1 s.transaction_list = false)
    (h2 : containsA tx2 s.transaction_list = false)
    (hne : tx2 ≠ tx1) :
    (process_transaction ⟨"deposit", cid, tx1, a⟩ s).2 = Except.ok 0 ∧
    (process_transaction ⟨"withdrawal", cid, tx2, a⟩
        (process_transaction ⟨"deposit", cid, tx1, a⟩ s).1).2 = Except.ok 0 ∧
    findA cid (process_transaction ⟨"withdrawal", cid, tx2, a⟩
        (process_transaction ⟨"deposit", cid, tx1, a⟩ s).1).1.client_list =
      some c0 := by
  obtain ⟨ci, av, he, tot, lk⟩ := c0
  have hpos2 : (0 : Int) < av := hpos
  have hdep := process_deposit_fresh ⟨"deposit", cid, tx1, a⟩ s rfl h1
  have hfind1 : findA cid
      ((process_transaction ⟨"deposit", cid, tx1, a⟩ s).1).client_list =
      some ⟨ci, av + a, he, tot + a, lk⟩ := by
    rw [hdep]
    show findA cid (updateA cid _ (effMap cid s.client_list)) = _
    rw [findA_updateA_effMap_self, effClient_of_present hc]
  have htx1 : ((process_transaction ⟨"deposit", cid, tx1, a⟩ s).1).transaction_list =
      insertA tx1 ⟨"deposit", cid, tx1, a⟩ s.transaction_list := by
    rw [hdep]
  have hav : (effClient cid
      ((process_transaction ⟨"deposit", cid, tx1, a⟩ s).1).client_list).available > a := by
    rw [effClient_of_present hfind1]
    show av + a > a
    omega
  have hfresh2 : containsA tx2
      ((process_transaction ⟨"deposit", cid, tx1, a⟩ s).1).transaction_list = false := by
    rw [htx1, containsA_insertA_ne (Ne.symm hne)]
    exact h2
  have hwd := process_withdrawal_ok ⟨"withdrawal", cid, tx2, a⟩
      ((process_transaction ⟨"deposit", cid, tx1, a⟩ s).1) rfl hav hfresh2
  refine ⟨by rw [hdep], by rw [hwd], ?_⟩
  rw [hwd]
  show findA cid (updateA cid _
      (effMap cid ((process_transaction ⟨"deposit", cid, tx1, a⟩ s).1).client_list)) = _
  rw [findA_updateA_effMap_self, effClient_of_present hfind1]
  simp

/-- C4 witness: the roundtrip theorem applied to a client holding available
3 with a deposit and withdrawal of 5 under fresh identifiers 10 and 11. -/
theorem c4_roundtrip_witness :
    (process_transaction ⟨"deposit", 1, 10, 5⟩
        ⟨[(1, ⟨1, 3, 0, 3, false⟩)], []⟩).2 = Except.ok 0 ∧
    (process_transaction ⟨"withdrawal", 1, 11, 5⟩
        (process_transaction ⟨"deposit", 1, 10, 5⟩
          ⟨[(1, ⟨1, 3, 0, 3, false⟩)], []⟩).1).2 = Except.ok 0 ∧
    findA 1 (process_transaction ⟨"withdrawal", 1, 11, 5⟩
        (process_transaction ⟨"deposit", 1, 10, 5⟩
          ⟨[(1, ⟨1, 3, 0, 3, false⟩)], []⟩).1).1.client_list =
      some ⟨1, 3, 0, 3, false⟩ :=
  c4_deposit_withdrawal_roundtrip ⟨[(1, ⟨1, 3, 0, 3, false⟩)], []⟩ 1 10 11 5
    ⟨1, 3, 0, 3, false⟩ (by decide) (by decide) (by decide) (by decide) (by decide)
